import Mathlib

/-!
Verification of the bumpti POI hydration pipeline (entity resolution,
relevance scoring, address parsing, geofencing).

The Python modules under `scripts/hydration/` are shallowly embedded as
executable Lean definitions.  Python strings become `String`/`List Char`,
tuples/rows become structures, dictionaries become association lists
(preserving insertion order, as Python 3 dicts do), floats are modelled as
rationals, and calls into external native libraries (shapely geometry
predicates, the rapidfuzz similarity scorer, the R-tree spatial index) are
modelled as explicit oracle parameters, so that every theorem quantifies over
all possible behaviours of those libraries.

Functions that the regression test-suite (`test_entity_resolution.py`)
imports from `hydration.deduplication` but that are absent from the
repository snapshot (`POI`, `generate_normalization_key`,
`has_matching_address_anchor`, `are_same_entity`) are modelled from the
specification text, as flagged in their doc comments.
-/

namespace Bumpti

/-! ## Character-level text utilities -/

/-- Modelled from the spec: the accent-stripping transliteration table
("transliterate to ASCII (strip accents)", §4.4).  It models the behaviour of
the `unidecode` library on the Latin-1 accented letters, which are the ones
exercised by the repository's data and tests; every other character is left
unchanged. -/
def translitPairs : List (Char × Char) :=
  [('á', 'a'), ('à', 'a'), ('â', 'a'), ('ã', 'a'), ('ä', 'a'), ('å', 'a'),
   ('é', 'e'), ('è', 'e'), ('ê', 'e'), ('ë', 'e'),
   ('í', 'i'), ('ì', 'i'), ('î', 'i'), ('ï', 'i'),
   ('ó', 'o'), ('ò', 'o'), ('ô', 'o'), ('õ', 'o'), ('ö', 'o'),
   ('ú', 'u'), ('ù', 'u'), ('û', 'u'), ('ü', 'u'),
   ('ç', 'c'), ('ñ', 'n'), ('ý', 'y'),
   ('Á', 'A'), ('À', 'A'), ('Â', 'A'), ('Ã', 'A'), ('Ä', 'A'), ('Å', 'A'),
   ('É', 'E'), ('È', 'E'), ('Ê', 'E'), ('Ë', 'E'),
   ('Í', 'I'), ('Ì', 'I'), ('Î', 'I'), ('Ï', 'I'),
   ('Ó', 'O'), ('Ò', 'O'), ('Ô', 'O'), ('Õ', 'O'), ('Ö', 'O'),
   ('Ú', 'U'), ('Ù', 'U'), ('Û', 'U'), ('Ü', 'U'),
   ('Ç', 'C'), ('Ñ', 'N'), ('Ý', 'Y')]

/-- Transliterate one character to ASCII (the per-character action of
`unidecode`). -/
def translitChar (c : Char) : Char :=
  match translitPairs.find? (fun p => p.1 = c) with
  | some p => p.2
  | none => c

/-- Python `unidecode(s)`: transliterate a whole string to ASCII. -/
def unidecodeStr (s : List Char) : List Char := s.map translitChar

/-- Python `s.lower()`: lower-case a string (the input is ASCII at every call site,
after transliteration, so the ASCII `Char.toLower` is faithful). -/
def lowerStr (s : List Char) : List Char := s.map Char.toLower

/-- An ASCII lower-case alphanumeric character (the character class kept by the
normalization key, `[a-z0-9]`). -/
def isKeyChar (c : Char) : Bool :=
  ('a' ≤ c && c ≤ 'z') || ('0' ≤ c && c ≤ '9')

/-- Replace every character outside `[a-z0-9]` with a space
(`re.sub(r'[^a-z0-9]+', ' ', text)` up to token splitting, which collapses
space runs anyway). -/
def maskNonAlnum (s : List Char) : List Char :=
  s.map (fun c => if isKeyChar c then c else ' ')

/-- Python `text.split()`: split into maximal runs of key characters, dropping
empties. -/
def splitTokens : List Char → List (List Char)
  | [] => []
  | c :: rest =>
    if isKeyChar c then
      match splitTokens rest with
      | [] => [[c]]
      | t :: ts =>
        if rest.head?.any isKeyChar then (c :: t) :: ts else [c] :: t :: ts
    else splitTokens rest

/-- Python `str.strip()`: drop leading and trailing whitespace. -/
def stripChars (s : List Char) : List Char :=
  ((s.dropWhile Char.isWhitespace).reverse.dropWhile Char.isWhitespace).reverse

/-- Modelled from the spec: the "fixed multilingual connector set
(de/do/da/the/and/of/el/la/le/du, etc.)" of stopwords dropped by the
normalization-key generator (§4.4). -/
def STOPWORDS : List (List Char) :=
  [['d', 'e'], ['d', 'o'], ['d', 'a'],
   ['t', 'h', 'e'], ['a', 'n', 'd'], ['o', 'f'],
   ['e', 'l'], ['l', 'a'], ['l', 'e'], ['d', 'u']]

/-- The token list of the normalization key of a character sequence:
transliterate to ASCII, lower-case, replace non-alphanumerics with spaces,
split into tokens, drop connector stopwords, and sort lexicographically. -/
def keyTokens (s : List Char) : List (List Char) :=
  List.insertionSort (· ≤ ·)
    (((splitTokens (maskNonAlnum (lowerStr (unidecodeStr s))))).filter
      (fun t => !(STOPWORDS.contains t)))

/-- Python `' '.join(tokens)` at the character level. -/
def joinTokens : List (List Char) → List Char
  | [] => []
  | [t] => t
  | t :: ts => t ++ ' ' :: joinTokens ts

/-- Modelled from the spec: `generate_normalization_key` (§4.4), the function
the regression tests import from `hydration.deduplication` but which is
missing from the repository snapshot.  Steps, per the spec: transliterate to
ASCII (strip accents), lower-case, replace all non-alphanumeric characters
with spaces, split into tokens, drop multilingual connector stopwords, sort
the remaining tokens lexicographically, join with single spaces. -/
def generate_normalization_key (name : String) : String :=
  ⟨joinTokens (keyTokens name.data)⟩

/-- Join a list of words with single spaces (used to state the
order-independence of the key generator over a name's words). -/
def joinSpace : List String → String
  | [] => ""
  | [w] => w
  | w :: ws => w ++ " " ++ joinSpace ws

/-- The function `normalize_text` from `deduplication.py`: lowercase, no accents,
stripped; empty input maps to the empty string. -/
def normalize_text (text : String) : String :=
  if text = "" then "" else ⟨stripChars (lowerStr (unidecodeStr text.data))⟩

/-! ## Entity-resolution cascade (spec-modelled)

The regression tests import `POI`, `has_matching_address_anchor` and
`are_same_entity` from `hydration.deduplication`, but the repository snapshot
of that module does not define them; they are modelled from §4.6 of the
specification. -/

/-- Modelled from the spec: the candidate record handled by the entity
resolver, with the fields the regression tests construct
(`POI(name, lat, lng, category, overture_id, house_number, postal_code,
relevance_score, normalization_key, row_data)`). -/
structure POI where
  name : String
  lat : ℚ
  lng : ℚ
  category : String
  overture_id : String
  house_number : String
  postal_code : String
  relevance_score : Int
  normalization_key : String
  row_data : List String
  deriving Repr, DecidableEq

/-- Modelled from the spec: the address anchor rule (§4.6).  If both
candidates have a non-empty house number they must match exactly; otherwise,
if both have a postal code it must match exactly; if neither identifier is
available on both sides the anchor passes by default. -/
def has_matching_address_anchor (p1 p2 : POI) : Bool :=
  if p1.house_number ≠ "" ∧ p2.house_number ≠ "" then
    p1.house_number == p2.house_number
  else if p1.postal_code ≠ "" ∧ p2.postal_code ≠ "" then
    p1.postal_code == p2.postal_code
  else
    true

/-- Modelled from the spec: the decision cascade of the entity resolver
(§4.6), evaluated top to bottom with first match winning:
1. source-ID identity (same upstream overture id merges unconditionally);
2. category protection (different internal categories never merge);
3. normalization-key equality, gated by the address anchor;
4. fuzzy tiebreak: token-set similarity of the keys above 0.95, gated by the
   address anchor.
`sim` is the similarity oracle modelling the external rapidfuzz
`token_set_ratio` scorer (scaled to 0–1); every theorem quantifies over it. -/
def are_same_entity (sim : String → String → ℚ) (p1 p2 : POI)
    (use_fuzzy_tiebreak : Bool) : Bool :=
  if p1.overture_id == p2.overture_id then
    true
  else if p1.category ≠ p2.category then
    false
  else if p1.normalization_key == p2.normalization_key then
    has_matching_address_anchor p1 p2
  else if use_fuzzy_tiebreak ∧
      (95 : ℚ) / 100 < sim p1.normalization_key p2.normalization_key then
    has_matching_address_anchor p1 p2
  else
    false

/-! ## Deduplication over DuckDB rows (`deduplication.py`) -/

/-- A row of the DuckDB POI query, with the named fields of the `POIColumn`
index enum.  Optional text columns are `String` with `""` for SQL NULL
(Python truthiness identifies the two); `confidence` is a rational with `0`
for NULL; `geom_wkb` is a byte list with `[]` for NULL. -/
structure POIRow where
  overture_id : String
  name : String
  overture_category : String
  alternate_categories : List String
  geom_wkb : List UInt8
  street : String
  house_number : String
  neighborhood : String
  postal_code : String
  state : String
  confidence : ℚ
  source_raw : String
  websites : List String
  socials : List String
  source_magnitude : Nat
  has_brand : Bool
  taxonomy_hierarchy : List String
  deriving Repr, DecidableEq

instance : Inhabited POIRow :=
  ⟨{ overture_id := "", name := "", overture_category := "",
     alternate_categories := [], geom_wkb := [], street := "",
     house_number := "", neighborhood := "", postal_code := "", state := "",
     confidence := 0, source_raw := "", websites := [], socials := [],
     source_magnitude := 1, has_brand := false, taxonomy_hierarchy := [] }⟩

/-- Python `int()` on a rational: truncation toward zero
(`Int.tdiv` is T-division, matching Python's `int()` on the reduced
numerator/denominator pair). -/
def pyInt (q : ℚ) : Int :=
  Int.tdiv q.num q.den

/-- The function `calculate_completeness_score` from `deduplication.py`: data-completeness
score for winner selection.  Real polygon +1000 (dominance), street +10,
house number +10, postal code +10, websites +5, socials +5, plus the
confidence scaled to 0–100. -/
def calculate_completeness_score (row : POIRow)
    (has_real_polygon : Bool := false) : Int :=
  (if has_real_polygon then 1000 else 0) +
  (if row.street ≠ "" then 10 else 0) +
  (if row.house_number ≠ "" then 10 else 0) +
  (if row.postal_code ≠ "" then 10 else 0) +
  (if row.websites ≠ [] then 5 else 0) +
  (if row.socials ≠ [] then 5 else 0) +
  (if row.confidence ≠ 0 then pyInt (row.confidence * 100) else 0)

/-- Python `category_map.get(cat, cat)`: look an overture category up in the
configured mapping, defaulting to itself. -/
def internalCategory (cmap : List (String × String)) (cat : String) : String :=
  (((cmap.find? (fun p => p.1 = cat)).map (fun p => p.2))).getD cat

/-- Ordered-dict insertion: overwrite the value in place if the key exists,
else append (Python 3 dict semantics). -/
def dictInsert {α : Type} (d : List (String × α)) (k : String) (v : α) :
    List (String × α) :=
  if (d.find? (fun p => p.1 = k)).isSome then
    d.map (fun p => if p.1 = k then (k, v) else p)
  else
    d ++ [(k, v)]

/-- Append an index to the group of `key`, creating the group at the end if
new (the `groups` dict of `_simple_dedup`). -/
def addToGroups (groups : List ((String × String) × List Nat))
    (key : String × String) (idx : Nat) :
    List ((String × String) × List Nat) :=
  match groups with
  | [] => [(key, [idx])]
  | (k, is) :: rest =>
    if k = key then (k, is ++ [idx]) :: rest
    else (k, is) :: addToGroups rest key idx

/-- Group the rows of `_simple_dedup` by (normalized name, internal
category), in insertion order. -/
def buildGroups (pois : List POIRow) (cmap : List (String × String)) :
    List ((String × String) × List Nat) :=
  pois.enum.foldl
    (fun gs p =>
      addToGroups gs
        (normalize_text p.2.name, internalCategory cmap p.2.overture_category)
        p.1)
    []

/-- Descending lexicographic order on `(score, idx)` pairs: the effect of
Python's `scores.sort(reverse=True)` on the distinct completeness tuples. -/
def scoreDesc (a b : Int × Nat) : Prop :=
  b.1 < a.1 ∨ (a.1 = b.1 ∧ b.2 ≤ a.2)

instance : DecidableRel scoreDesc := fun a b => by
  unfold scoreDesc; infer_instance

instance : IsTotal (Int × Nat) scoreDesc :=
  ⟨fun a b => by
    unfold scoreDesc
    rcases lt_trichotomy a.1 b.1 with h | h | h
    · exact Or.inr (Or.inl h)
    · rcases Nat.le_total a.2 b.2 with h2 | h2
      · exact Or.inr (Or.inr ⟨h.symm, h2⟩)
      · exact Or.inl (Or.inr ⟨h, h2⟩)
    · exact Or.inl (Or.inl h)⟩

instance : IsTrans (Int × Nat) scoreDesc :=
  ⟨fun a b c hab hbc => by
    unfold scoreDesc at *
    rcases hab with h1 | ⟨h1, h1'⟩ <;> rcases hbc with h2 | ⟨h2, h2'⟩
    · exact Or.inl (h2.trans h1)
    · exact Or.inl (h2 ▸ h1)
    · exact Or.inl (h1 ▸ h2)
    · exact Or.inr ⟨h1.trans h2, h2'.trans h1'⟩⟩

/-- The `(score, idx)` pairs of a group, sorted descending: the winner is the
head, the rest are the losers (`_simple_dedup`, winner-selection block). -/
def sortedScores (pois : List POIRow) (indices : List Nat) :
    List (Int × Nat) :=
  List.insertionSort scoreDesc
    (indices.map (fun i => (calculate_completeness_score (pois.getD i default) false, i)))

/-- The function `_simple_dedup` from `deduplication.py`: the fallback deduplication used
when geopandas is unavailable.  Groups rows by (normalized name, internal
category); within each multi-member group, elects the winner by descending
(completeness score, index) and maps every other member's overture id to the
winner's.  Returns (winners, duplicate mappings, all_pois_data).
`simpleStep` is the per-group body of its result loop. -/
def simpleStep (pois : List POIRow)
    (acc : List POIRow × List (String × String))
    (g : (String × String) × List Nat) :
    List POIRow × List (String × String) :=
  match g.2 with
  | [i] => (acc.1 ++ [pois.getD i default], acc.2)
  | is =>
    match sortedScores pois is with
    | [] => acc
    | w :: losers =>
      (acc.1 ++ [pois.getD w.2 default],
       acc.2 ++ losers.map (fun l =>
         ((pois.getD l.2 default).overture_id,
          (pois.getD w.2 default).overture_id)))

def _simple_dedup (pois : List POIRow) (cmap : List (String × String))
    (all_pois_data : List (String × POIRow)) :
    List POIRow × List (String × String) × List (String × POIRow) :=
  let r := (buildGroups pois cmap).foldl (simpleStep pois) ([], [])
  (r.1, r.2, all_pois_data)

/-- Configuration consumed by the deduplicator:
`config.get('categories', {}).get('mapping', {})`. -/
structure DedupConfig where
  category_mapping : List (String × String)

/-- Oracle bundle for the external native libraries used by the elite
deduplication path: shapely (geometry decoding and predicates), the pandas
R-tree spatial index, and rapidfuzz.  `G` is the opaque shapely geometry
type.  `none` results model raised exceptions, which the source catches and
treats as "skip this candidate". -/
structure GeoLib (G : Type) where
  wkbLoads : List UInt8 → Option G
  isPoint : G → Bool
  bufferDeg : G → ℚ → G
  isRealPolygonFn : G → Bool
  sindexQuery : List (Option G) → G → List Nat
  intersects : G → G → Option Bool
  distance : G → G → Option ℚ
  tokenSetScore : String → String → ℚ

/-- Fuzzy similarity threshold required for a merge (`FUZZY_THRESHOLD`,
0.90). -/
def FUZZY_THRESHOLD : ℚ := mkRat 9 10

/-- Internal categories treated as spatially large venues
(`LARGE_VENUE_CATEGORIES`). -/
def LARGE_VENUE_CATEGORIES : List String :=
  ["park", "stadium", "shopping", "university", "event_venue", "club"]

/-- The function `fuzzy_match` from `deduplication.py` (rapidfuzz-available branch):
token-set similarity of the normalized names, `0` when either normalizes to
the empty string. -/
def fuzzy_match {G : Type} (lib : GeoLib G) (name1 name2 : String) : ℚ :=
  let norm1 := normalize_text name1
  let norm2 := normalize_text name2
  if norm1 = "" ∨ norm2 = "" then 0 else lib.tokenSetScore norm1 norm2

/-- One record of the `poi_geometries` frame built in Phase 1 of
`deduplicate_pois_in_memory` (without the mutable `merged_into` column,
which is threaded separately as the loop state). -/
structure DedupEntry (G : Type) where
  idx : Nat
  overture_id : String
  name : String
  norm_name : String
  category : String
  geometry : Option G
  is_real_polygon : Bool

/-- Build one record of the `poi_geometries` frame from an enumerated row:
decode its WKB geometry (falsy or undecodable bytes give `none`), map its
category, and normalize its name. -/
def mkDedupEntry {G : Type} (lib : GeoLib G) (cmap : List (String × String))
    (p : Nat × POIRow) : DedupEntry G :=
  let geom := if p.2.geom_wkb = [] then none else lib.wkbLoads p.2.geom_wkb
  { idx := p.1,
    overture_id := p.2.overture_id,
    name := p.2.name,
    norm_name := normalize_text p.2.name,
    category := internalCategory cmap p.2.overture_category,
    geometry := geom,
    is_real_polygon :=
      match geom with
      | some g => lib.isRealPolygonFn g
      | none => false }

/-- Phase 1 of `deduplicate_pois_in_memory`: the `poi_geometries` frame. -/
def buildEntries {G : Type} (lib : GeoLib G) (cmap : List (String × String))
    (pois : List POIRow) : List (DedupEntry G) :=
  pois.enum.map (mkDedupEntry lib cmap)

/-- The completeness score of a frame entry: the source's
`calculate_completeness_score(pois_list[row['idx']], has_real_polygon=...)`. -/
def entryScore {G : Type} (pois : List POIRow) (e : DedupEntry G) : Int :=
  calculate_completeness_score (pois.getD e.idx default) e.is_real_polygon

/-- The `try`-guarded proximity test of the inner loop: a true intersection,
or (when disjoint) a distance within the category threshold (1.5km for large
venue categories, 30m otherwise, converted to degrees); a raised exception
(`none` from either oracle) skips the candidate. -/
def eliteProximity {G : Type} (lib : GeoLib G) (cat : String) (gi gj : G) :
    Bool :=
  match lib.intersects gi gj with
  | none => false
  | some true => true
  | some false =>
    match lib.distance gi gj with
    | none => false
    | some d =>
      let threshold_m : ℚ :=
        if LARGE_VENUE_CATEGORIES.contains cat then 1500 else 30
      decide (d ≤ threshold_m / 111000)

/-- The body of the inner candidate loop of Phase 2: compare entry `i`
(snapshot `ei`, whose geometry the outer loop already checked) against
candidate index `j`, and mark the loser's `merged_into` cell on a match.
Mirrors the source line by line: skip when `i >= j`, when `j` is already
merged or has no geometry, on category mismatch, on similarity below the
threshold, and on a failed intersection/proximity test; otherwise the row
with the lower completeness score (ties to `i`) is merged into the other. -/
def eliteStep {G : Type} (lib : GeoLib G) (pois : List POIRow)
    (entries : List (DedupEntry G)) (i : Nat) (ei : DedupEntry G) (gi : G)
    (merged : List (Option String)) (j : Nat) : List (Option String) :=
  if j ≤ i then merged
  else
    match entries[j]? with
    | none => merged
    | some ej =>
      if (merged.getD j none).isSome then merged
      else
        match ej.geometry with
        | none => merged
        | some gj =>
          if ei.category ≠ ej.category then merged
          else if fuzzy_match lib ei.name ej.name < FUZZY_THRESHOLD then merged
          else if !(eliteProximity lib ei.category gi gj) then merged
          else if entryScore pois ej ≤ entryScore pois ei then
            merged.set j (some ei.overture_id)
          else
            merged.set i (some ej.overture_id)

/-- The body of the outer loop of Phase 2: skip already-merged or
geometry-less rows, build the search geometry (points get a ~1.5km degree
buffer), query the spatial index, and fold the inner loop over the candidate
indices. -/
def eliteOuter {G : Type} (lib : GeoLib G) (pois : List POIRow)
    (entries : List (DedupEntry G)) (merged : List (Option String)) (i : Nat) :
    List (Option String) :=
  match entries[i]? with
  | none => merged
  | some ei =>
    if (merged.getD i none).isSome then merged
    else
      match ei.geometry with
      | none => merged
      | some gi =>
        let search_geom := if lib.isPoint gi then lib.bufferDeg gi (15 / 1000) else gi
        let possible := lib.sindexQuery (entries.map (fun e => e.geometry)) search_geom
        possible.foldl (eliteStep lib pois entries i ei gi) merged

/-- Phase 2 of `deduplicate_pois_in_memory`: the final `merged_into` column
after folding the outer loop over every row index. -/
def eliteMerged {G : Type} (lib : GeoLib G) (pois : List POIRow)
    (cmap : List (String × String)) : List (Option String) :=
  (List.range (buildEntries lib cmap pois).length).foldl
    (eliteOuter lib pois (buildEntries lib cmap pois))
    ((buildEntries lib cmap pois).map (fun _ => none))

/-- The function `deduplicate_pois_in_memory` from `deduplication.py` (geopandas-available
path): build the geometry frame, run the pairwise merge loop, and emit the
surviving winners together with the loser-to-winner duplicate mappings and
the id-indexed row dictionary. -/
def deduplicate_pois_in_memory {G : Type} (lib : GeoLib G)
    (pois : List POIRow) (config : DedupConfig) :
    List POIRow × List (String × String) × List (String × POIRow) :=
  if pois = [] then ([], [], [])
  else
    let all_pois_data :=
      pois.foldl (fun d row => dictInsert d row.overture_id row) []
    let cmap := config.category_mapping
    let entries := buildEntries lib cmap pois
    let merged := eliteMerged lib pois cmap
    let winners :=
      (entries.filter (fun e => (merged.getD e.idx none) = none)).map
        (fun e => pois.getD e.idx default)
    let mappings :=
      entries.filterMap (fun e =>
        (merged.getD e.idx none).map (fun w => (e.overture_id, w)))
    (winners, mappings, all_pois_data)

/-- The invariant of the Phase-2 merge loop: whenever the `merged_into` cell
of position `k` holds a winner id `w`, there is a loser entry at `k` and a
winner entry carrying `w` of the same internal category whose completeness
score is at least the loser's, with equal scores only when the winner was
discovered earlier. -/
abbrev MergedInv {G : Type} (pois : List POIRow)
    (entries : List (DedupEntry G)) (merged : List (Option String)) : Prop :=
  ∀ (k : Nat) (w : String), merged[k]? = some (some w) →
    ∃ el ew : DedupEntry G, entries[k]? = some el ∧ ew ∈ entries ∧
      ew.overture_id = w ∧ ew.category = el.category ∧
      entryScore pois el ≤ entryScore pois ew ∧
      (entryScore pois ew = entryScore pois el → ew.idx < el.idx)

/-- The invariant of the `groups` dict of `_simple_dedup`: every index filed
under a key comes from a row whose (normalized name, internal category) pair
is that key. -/
abbrev GroupsInv (pois : List POIRow) (cmap : List (String × String))
    (gs : List ((String × String) × List Nat)) : Prop :=
  ∀ kv ∈ gs, ∀ i ∈ kv.2, ∃ row, pois[i]? = some row ∧
    kv.1 = (normalize_text row.name, internalCategory cmap row.overture_category)

/-! ## Relevance scoring (`scoring.py` / `hydrate_overture_city.py`,
identical definitions of `calculate_scores`) -/

/-- The configured weight table
`config['categories']['scoring_modifiers']['base_scoring']`. -/
structure BaseScoring where
  base : Int
  website : Int
  social : Int
  high_confidence : Int
  house_number : Int
  neighborhood : Int
  street : Int
  source_magnitude_3plus : Int
  source_magnitude_2 : Int
  brand_authority : Int
  dual_presence : Int

/-- The `bonus_flags` diagnostics dict returned beside the score. -/
structure BonusFlags where
  magnitude_bonus : Int
  brand_bonus : Bool
  dual_presence_bonus : Bool
  iconic_bonus : Bool
  deriving Repr, DecidableEq

/-- One element of the `socials` list: a dict with an optional `platform`
key, or a non-dict value (which the `isinstance` guard skips). -/
inductive SocialEntry where
  | dict (platform : Option String)
  | nonDict
  deriving Repr, DecidableEq

/-- Python `str.lower()` on the ASCII platform tags. -/
def pyLower (s : String) : String := ⟨s.data.map Char.toLower⟩

/-- The social-presence test of `calculate_scores`: some element is a dict
whose lower-cased platform is `instagram` or `facebook` (`None` and `[]` are
both falsy). -/
def hasAcceptedSocial (socials : Option (List SocialEntry)) : Bool :=
  (socials.getD []).any (fun s =>
    match s with
    | SocialEntry.dict p => ["instagram", "facebook"].contains (pyLower (p.getD ""))
    | SocialEntry.nonDict => false)

/-- The website-presence test of `calculate_scores`:
`bool(websites and isinstance(websites, (list, tuple)) and len(websites) > 0)`. -/
def hasWebsiteList (websites : Option (List String)) : Bool :=
  match websites with
  | some l => !l.isEmpty
  | none => false

/-- Truthiness of an optional address field combined with
`str(field).strip()` being non-empty, as tested by `calculate_scores`. -/
def addressFieldPresent (field : Option String) : Bool :=
  match field with
  | some s => s ≠ "" ∧ stripChars s.data ≠ []
  | none => false

/-- The function `calculate_scores` from `scoring.py` (the copy in
`hydrate_overture_city.py` is character-identical): relevance score and
bonus flags, or `None` when the record has no online presence and confidence
below 0.9. -/
def calculate_scores (confidence : ℚ) (websites : Option (List String))
    (socials : Option (List SocialEntry)) (street : Option String)
    (house_number : Option String) (neighborhood : Option String)
    (source_magnitude : Nat) (has_brand : Bool) (is_iconic : Bool)
    (config : BaseScoring) : Option (Int × BonusFlags) :=
  let has_social := hasAcceptedSocial socials
  let has_website := hasWebsiteList websites
  let has_online := has_website || has_social
  if !has_online ∧ confidence < 9 / 10 then none
  else
    let relevance := config.base
    let relevance := if is_iconic then relevance + 100 else relevance
    let relevance := if has_website then relevance + config.website else relevance
    let relevance := if has_social then relevance + config.social else relevance
    let relevance :=
      if 9 / 10 ≤ confidence then relevance + config.high_confidence
      else relevance
    let relevance :=
      if addressFieldPresent house_number then relevance + config.house_number
      else relevance
    let relevance :=
      if addressFieldPresent neighborhood then relevance + config.neighborhood
      else relevance
    let relevance :=
      if addressFieldPresent street then relevance + config.street
      else relevance
    let relevance :=
      if 3 ≤ source_magnitude then relevance + config.source_magnitude_3plus
      else if source_magnitude = 2 then relevance + config.source_magnitude_2
      else relevance
    let relevance :=
      if has_brand then relevance + config.brand_authority else relevance
    let relevance :=
      if has_website && has_social then relevance + config.dual_presence
      else relevance
    let flags : BonusFlags :=
      { magnitude_bonus :=
          if 3 ≤ source_magnitude then config.source_magnitude_3plus
          else if source_magnitude = 2 then config.source_magnitude_2
          else 0,
        brand_bonus := has_brand,
        dual_presence_bonus := has_website && has_social,
        iconic_bonus := is_iconic }
    some (relevance, flags)

/-! ## Address parser (module `address_parser.py`; `utils.py` carries a
character-identical copy of `parse_street_address`) -/

/-- Python regex `\w` restricted to ASCII: letters, digits, underscore. -/
def isWordCh (c : Char) : Bool := c.isAlphanum || c = '_'

/-- The `[/\w-]` class of the house-number patterns. -/
def isNumTailCh (c : Char) : Bool := isWordCh c || c = '/' || c = '-'

/-- Python regex `.`: any character except a newline. -/
def dotCh (c : Char) : Bool := c ≠ '\n'

/-- Pattern 1, `^(\d+[/\w-]*)\s+(.+)$`: leading numeric token.  Returns
`(street, number)`. -/
def matchP1 (cs : List Char) : Option (List Char × List Char) :=
  let ds := cs.takeWhile Char.isDigit
  if ds = [] then none
  else
    let rest1 := cs.drop ds.length
    let ws := rest1.takeWhile isNumTailCh
    let g1 := ds ++ ws
    let rest2 := rest1.drop ws.length
    let sp := rest2.takeWhile Char.isWhitespace
    if sp = [] then none
    else
      let g2 := rest2.drop sp.length
      if g2 ≠ [] then
        if g2.all dotCh then some (g2, g1) else none
      else if 2 ≤ sp.length ∧ sp.getLast? ≠ some '\n' then
        some ([sp.getLastD ' '], g1)
      else none

/-- The tail test of pattern 2: the text after the comma must match
`\s*(\d+[/\w-]*)$`. -/
def p2TailOK (t : List Char) : Bool :=
  let r := t.dropWhile Char.isWhitespace
  r ≠ [] ∧ (r.headD ' ').isDigit ∧ r.all isNumTailCh

/-- Pattern 2, `^(.+?),\s*(\d+[/\w-]*)$`: earliest comma (lazy `.+?`) whose
tail is a numeric token; the group before the comma may not contain a
newline. -/
def scanComma (acc : List Char) : List Char → Option (List Char × List Char)
  | [] => none
  | c :: rest =>
    if c = ',' ∧ acc ≠ [] ∧ p2TailOK rest then
      some (acc.reverse, rest.dropWhile Char.isWhitespace)
    else if c = '\n' then none
    else scanComma (c :: acc) rest

/-- The tail test of pattern 3: the text after the lazy street group must
match `\s+(\d+[/\w-]*)$`. -/
def p3TailOK (t : List Char) : Bool :=
  let sp := t.takeWhile Char.isWhitespace
  sp ≠ [] ∧ p2TailOK t

/-- Pattern 3, `^(.+?)\s+(\d+[/\w-]*)$`: shortest newline-free street group
followed by whitespace and a trailing numeric token. -/
def scanP3 (acc : List Char) : List Char → Option (List Char × List Char)
  | [] => none
  | c :: rest =>
    if acc ≠ [] ∧ p3TailOK (c :: rest) then
      some (acc.reverse, (c :: rest).dropWhile Char.isWhitespace)
    else if c = '\n' then none
    else scanP3 (c :: acc) rest

/-- Python `str.isdigit()` on the extracted token (ASCII digits). -/
def pyIsDigit (num : List Char) : Bool :=
  num ≠ [] ∧ num.all Char.isDigit

/-- The guard regex `^\d+[A-Za-z]?$` of pattern 3: digits plus at most one
letter. -/
def digitsPlusOneLetter (num : List Char) : Bool :=
  let ds := num.takeWhile Char.isDigit
  let rest := num.drop ds.length
  ds ≠ [] ∧ (rest = [] ∨ (rest.length = 1 ∧ (rest.headD ' ').isAlpha))

/-- The function `parse_street_address` from the address parser module (and `utils.py`):
extract (street, house number) from a free-form address, trying the three
patterns in order; a trailing token with no comma is only accepted if purely
digits or digits plus one letter; otherwise the whole stripped string is the
street; falsy input gives `(None, None)`. -/
def parse_street_address (freeform : Option String) :
    Option String × Option String :=
  match freeform with
  | none => (none, none)
  | some f =>
    if f = "" then (none, none)
    else
      let s := stripChars f.data
      match matchP1 s with
      | some (street, num) => (some ⟨street⟩, some ⟨num⟩)
      | none =>
        match scanComma [] s with
        | some (street, num) => (some ⟨street⟩, some ⟨num⟩)
        | none =>
          match scanP3 [] s with
          | some (street, num) =>
            if pyIsDigit num ∨ digitsPlusOneLetter num then
              (some ⟨street⟩, some ⟨num⟩)
            else (some ⟨s⟩, none)
          | none => (some ⟨s⟩, none)

/-! ## Geofencing (`geofencing.py`) -/

/-- Internal categories using real polygon boundaries (`AREA_CATEGORIES`). -/
def AREA_CATEGORIES : List String :=
  ["park", "stadium", "university", "shopping", "event_venue", "museum",
   "club", "theatre"]

/-- Internal categories using point-based precision circles
(`POINT_CATEGORIES`). -/
def POINT_CATEGORIES : List String :=
  ["bar", "nightclub", "restaurant", "cafe", "gym", "plaza", "library",
   "community_centre", "sports_centre", "language_school",
   "commercial_center", "skate_park"]

/-- Fallback buffer radius in meters per area category (`FALLBACK_RADIUS`);
the lookup defaults to 300. -/
def FALLBACK_RADIUS : List (String × ℚ) :=
  [("park", 400), ("university", 150), ("stadium", 150), ("shopping", 300),
   ("event_venue", 100), ("club", 200), ("museum", 200), ("theatre", 100)]

/-- Python `FALLBACK_RADIUS.get(poi_category, 300)`. -/
def fallbackRadius (cat : String) : ℚ :=
  (((FALLBACK_RADIUS.find? (fun p => p.1 = cat)).map (fun p => p.2))).getD 300

/-- The constant `SAFETY_MARGIN_METERS`: fixed GPS-error safety margin. -/
def SAFETY_MARGIN_METERS : ℚ := 60

/-- Oracle bundle for the external libraries used by the boundary builder:
shapely WKB decoding and hex encoding, the projected meter-based buffer
(`_buffer_geometry`, `none` on failure), and the polygon matcher
`_find_matching_polygon` (whole-function oracle: it is pure consultation of
pandas/rapidfuzz state and is never reached on the paths under proof). -/
structure GeofenceLib (G : Type) where
  wkbLoads : List UInt8 → Option G
  bufferMeters : G → ℚ → Option G
  wkbHex : G → String
  findMatch : G → String → String → List G → Option G

/-- The function `compute_poi_boundary` from `geofencing.py` (geopandas-available path):
area categories attempt a polygon match with a 60m safety buffer and fall
back to a category radius plus the margin; point categories and unknown
categories always take the fixed 60m buffer around the decoded point. -/
def compute_poi_boundary {G : Type} (lib : GeofenceLib G)
    (poi_geom_wkb : List UInt8) (poi_name : String) (poi_category : String)
    (city_polygons : Option (List G)) : Option String :=
  match lib.wkbLoads poi_geom_wkb with
  | none => none
  | some poi_point =>
    if poi_category ∈ AREA_CATEGORIES then
      let matched : Option G :=
        match city_polygons with
        | some polys =>
          if 0 < polys.length then
            lib.findMatch poi_point poi_name poi_category polys
          else none
        | none => none
      let boundary : Option G :=
        match matched with
        | some b => lib.bufferMeters b SAFETY_MARGIN_METERS
        | none =>
          lib.bufferMeters poi_point
            (fallbackRadius poi_category + SAFETY_MARGIN_METERS)
      match boundary with
      | some b => some (lib.wkbHex b)
      | none => none
    else if poi_category ∈ POINT_CATEGORIES then
      match lib.bufferMeters poi_point SAFETY_MARGIN_METERS with
      | some b => some (lib.wkbHex b)
      | none => none
    else
      match lib.bufferMeters poi_point SAFETY_MARGIN_METERS with
      | some b => some (lib.wkbHex b)
      | none => none

/-! ## Concrete fixtures (mirroring `test_entity_resolution.py`) -/

/-- Candidate A of `test_gers_id_priority`: shares its overture id with
`gersPoi2` while every other identifying field differs. -/
def gersPoi1 : POI :=
  { name := "Different Name A", lat := -254 / 10, lng := -493 / 10,
    category := "bar", overture_id := "same-gers-id", house_number := "100",
    postal_code := "80000", relevance_score := 100,
    normalization_key := generate_normalization_key "Different Name A",
    row_data := [] }

/-- Candidate B of `test_gers_id_priority`. -/
def gersPoi2 : POI :=
  { name := "Different Name B", lat := -254 / 10, lng := -493 / 10,
    category := "bar", overture_id := "same-gers-id", house_number := "102",
    postal_code := "80100", relevance_score := 120,
    normalization_key := generate_normalization_key "Different Name B",
    row_data := [] }

/-- A chain-store record that shares its upstream source id with
`sharedIdStoreB` but sits at house number 100. -/
def sharedIdStoreA : POI :=
  { name := "Padaria Central", lat := -254 / 10, lng := -493 / 10,
    category := "bakery", overture_id := "dup-id-1", house_number := "100",
    postal_code := "80000", relevance_score := 100,
    normalization_key := generate_normalization_key "Padaria Central",
    row_data := [] }

/-- Same upstream source id as `sharedIdStoreA`, house number 200. -/
def sharedIdStoreB : POI :=
  { name := "Padaria Central", lat := -2541 / 100, lng := -4931 / 100,
    category := "bakery", overture_id := "dup-id-1", house_number := "200",
    postal_code := "80000", relevance_score := 120,
    normalization_key := generate_normalization_key "Padaria Central",
    row_data := [] }

/-- Fixture `store1` of `test_address_disambiguation`. -/
def store1 : POI :=
  { name := "Padaria Central", lat := -254 / 10, lng := -493 / 10,
    category := "bakery", overture_id := "store1-123", house_number := "100",
    postal_code := "80000", relevance_score := 100,
    normalization_key := generate_normalization_key "Padaria Central",
    row_data := [] }

/-- Fixture `store2` of `test_address_disambiguation`. -/
def store2 : POI :=
  { name := "Padaria Central", lat := -2541 / 10000 * 1000,
    lng := -4931 / 10000 * 1000, category := "bakery",
    overture_id := "store2-456", house_number := "200", postal_code := "80000",
    relevance_score := 120,
    normalization_key := generate_normalization_key "Padaria Central",
    row_data := [] }

/-- A minimal cafe row: no address data, no online presence, zero
confidence. -/
def tieRow0 : POIRow :=
  { (default : POIRow) with
    overture_id := "tie-0", name := "Duo Cafe", overture_category := "cafe" }

/-- A second row identical to `tieRow0` in every scored signal, discovered
later. -/
def tieRow1 : POIRow :=
  { (default : POIRow) with
    overture_id := "tie-1", name := "Duo Cafe", overture_category := "cafe" }

/-- A row that decodes to a real polygon but has no address, online or
confidence signals at all. -/
def polyRow : POIRow :=
  { (default : POIRow) with
    overture_id := "poly-0", name := "Lone Cafe", overture_category := "cafe",
    geom_wkb := [1] }

/-- A row complete in the address and online signals of the claimed
completeness score (street, house number, postal code, website, socials),
with a point geometry. -/
def richRow : POIRow :=
  { (default : POIRow) with
    overture_id := "rich-1", name := "Lone Cafe", overture_category := "cafe",
    geom_wkb := [2], street := "Rua A", house_number := "1",
    postal_code := "80000", websites := ["w"], socials := ["s"] }

/-- A concrete geometry library over `Bool` geometries: the WKB bytes `[1]`
decode to the `true` geometry, which reports as a real polygon; everything
intersects; the spatial index returns both rows. -/
def boolLib : GeoLib Bool :=
  { wkbLoads := fun b => some (decide (b = [1])),
    isPoint := fun _ => false,
    bufferDeg := fun g _ => g,
    isRealPolygonFn := fun g => g,
    sindexQuery := fun _ _ => [0, 1],
    intersects := fun _ _ => some true,
    distance := fun _ _ => some 0,
    tokenSetScore := fun _ _ => 1 }

/-- A trivial geometry library over `Unit`, used to witness the geofencing
theorems. -/
def unitGeofenceLib : GeofenceLib Unit :=
  { wkbLoads := fun _ => some (),
    bufferMeters := fun _ _ => some (),
    wkbHex := fun _ => "0103deadbeef",
    findMatch := fun _ _ _ _ => none }

/-! ## Theorems -/

/-- A key character has code point at most 122 (`z`). -/
theorem isKeyChar_le {c : Char} (h : isKeyChar c = true) : c.toNat ≤ 122 := by
  unfold isKeyChar at h
  rw [Bool.or_eq_true, Bool.and_eq_true, Bool.and_eq_true] at h
  rcases h with ⟨_, h2⟩ | ⟨_, h2⟩
  · have := Char.le_def.mp (of_decide_eq_true h2)
    exact this
  · have : c.toNat ≤ 57 := Char.le_def.mp (of_decide_eq_true h2)
    omega

/-- Transliteration does not touch key characters (every table key is an
accented letter with code point above 122). -/
theorem translitChar_key {c : Char} (h : isKeyChar c = true) :
    translitChar c = c := by
  unfold translitChar
  have hnone : translitPairs.find? (fun p => p.1 = c) = none := by
    rw [List.find?_eq_none]
    intro x hx
    have hbig : ∀ y ∈ translitPairs, 122 < y.1.toNat := by decide
    have hc := isKeyChar_le h
    have hxc := hbig x hx
    simp only [decide_eq_true_eq]
    intro heq
    rw [heq] at hxc
    omega
  rw [hnone]

/-- Lower-casing does not touch key characters (they are outside `A`–`Z`). -/
theorem toLower_key {c : Char} (h : isKeyChar c = true) :
    c.toLower = c := by
  unfold isKeyChar at h
  rw [Bool.or_eq_true, Bool.and_eq_true, Bool.and_eq_true] at h
  unfold Char.toLower
  rw [if_neg]
  rcases h with ⟨h1, _⟩ | ⟨_, h2⟩
  · have : 97 ≤ c.toNat := Char.le_def.mp (of_decide_eq_true h1)
    omega
  · have : c.toNat ≤ 57 := Char.le_def.mp (of_decide_eq_true h2)
    omega

/-- The whole per-character pipeline (transliterate, lower-case, mask) is
the identity on key characters and on the space. -/
theorem pipelineChar_id {c : Char} (h : isKeyChar c = true ∨ c = ' ') :
    (if isKeyChar (translitChar c).toLower then (translitChar c).toLower
     else ' ') = c := by
  rcases h with h | rfl
  · rw [translitChar_key h, toLower_key h, if_pos h]
  · decide

/-- On strings of key characters and spaces, the character pipeline of the
key generator is the identity. -/
theorem process_eq_self {l : List Char}
    (h : ∀ c ∈ l, isKeyChar c = true ∨ c = ' ') :
    maskNonAlnum (lowerStr (unidecodeStr l)) = l := by
  unfold maskNonAlnum lowerStr unidecodeStr
  rw [List.map_map, List.map_map]
  calc l.map ((fun c => if isKeyChar c then c else ' ') ∘
          Char.toLower ∘ translitChar)
      = l.map id := List.map_congr_left (fun c hc => pipelineChar_id (h c hc))
    _ = l := List.map_id l

/-- The tokens produced by `splitTokens` are non-empty runs of key
characters. -/
theorem splitTokens_all_key :
    ∀ {s t : List Char}, t ∈ splitTokens s →
      t ≠ [] ∧ ∀ c ∈ t, isKeyChar c = true := by
  intro s
  induction s with
  | nil =>
    intro t ht
    cases ht
  | cons c rest ih =>
    intro t ht
    unfold splitTokens at ht
    by_cases hc : isKeyChar c
    · rw [if_pos hc] at ht
      cases hsp : splitTokens rest with
      | nil =>
        rw [hsp] at ht
        rw [List.mem_singleton] at ht
        subst ht
        exact ⟨by simp, by
          intro c' hc'
          rw [List.mem_singleton] at hc'
          subst hc'
          exact hc⟩
      | cons t' ts =>
        rw [hsp] at ht
        dsimp only at ht
        by_cases hh : rest.head?.any isKeyChar
        · rw [if_pos hh] at ht
          rcases List.mem_cons.mp ht with rfl | ht'
          · have ht'mem : t' ∈ splitTokens rest := by
              rw [hsp]; exact List.mem_cons_self _ _
            obtain ⟨_, hkeys⟩ := ih ht'mem
            refine ⟨by simp, ?_⟩
            intro c' hc'
            rcases List.mem_cons.mp hc' with rfl | hc''
            · exact hc
            · exact hkeys c' hc''
          · exact ih (by rw [hsp]; exact List.mem_cons_of_mem _ ht')
        · rw [if_neg hh] at ht
          rcases List.mem_cons.mp ht with rfl | ht'
          · exact ⟨by simp, by
              intro c' hc'
              rw [List.mem_singleton] at hc'
              subst hc'
              exact hc⟩
          · exact ih (by rw [hsp]; exact ht')
    · rw [if_neg hc] at ht
      exact ih ht

/-- A head-key string splits into at least one token. -/
theorem splitTokens_ne_nil {c : Char} {rest : List Char}
    (hc : isKeyChar c = true) : splitTokens (c :: rest) ≠ [] := by
  unfold splitTokens
  rw [if_pos hc]
  cases splitTokens rest with
  | nil => simp
  | cons t' ts =>
    dsimp only
    by_cases hh : rest.head?.any isKeyChar
    · rw [if_pos hh]; simp
    · rw [if_neg hh]; simp

/-- A non-empty all-key string is one single token. -/
theorem splitTokens_single :
    ∀ {t : List Char}, t ≠ [] → (∀ c ∈ t, isKeyChar c = true) →
      splitTokens t = [t] := by
  intro t
  induction t with
  | nil => intro h; exact absurd rfl h
  | cons c t' ih =>
    intro _ hkey
    have hc : isKeyChar c = true := hkey c (List.mem_cons_self _ _)
    cases t' with
    | nil => simp [splitTokens, hc]
    | cons c'' t'' =>
      have hc'' : isKeyChar c'' = true :=
        hkey c'' (List.mem_cons_of_mem _ (List.mem_cons_self _ _))
      have hrec : splitTokens (c'' :: t'') = [c'' :: t''] :=
        ih (by simp) (fun x hx => hkey x (List.mem_cons_of_mem _ hx))
      unfold splitTokens
      rw [if_pos hc, hrec]
      simp [hc'']

/-- The defining equation of `splitTokens` on a cons cell. -/
theorem splitTokens_cons (c : Char) (z : List Char) :
    splitTokens (c :: z) =
      if isKeyChar c then
        match splitTokens z with
        | [] => [[c]]
        | t :: ts =>
          if z.head?.any isKeyChar then (c :: t) :: ts else [c] :: t :: ts
      else splitTokens z := by
  rfl

/-- Splitting distributes over a space separator. -/
theorem splitTokens_append (x y : List Char) :
    splitTokens (x ++ ' ' :: y) = splitTokens x ++ splitTokens y := by
  induction x with
  | nil =>
    simp only [List.nil_append]
    rw [splitTokens_cons, if_neg (by decide)]
    rw [show splitTokens ([] : List Char) = [] from rfl, List.nil_append]
  | cons c x' ih =>
    rw [List.cons_append, splitTokens_cons c (x' ++ ' ' :: y),
      splitTokens_cons c x']
    by_cases hc : isKeyChar c
    · rw [if_pos hc, if_pos hc, ih]
      cases hx : splitTokens x' with
      | nil =>
        simp only [List.nil_append]
        cases hy : splitTokens y with
        | nil => simp
        | cons t ts =>
          have hxhead : x'.head?.any isKeyChar = false := by
            cases x' with
            | nil => rfl
            | cons c'' x'' =>
              have hnk : isKeyChar c'' = false := by
                by_contra hcon
                exact splitTokens_ne_nil (Bool.of_not_eq_false hcon) hx
              simp [hnk]
          have hhead : (x' ++ ' ' :: y).head?.any isKeyChar = false := by
            cases x' with
            | nil => rfl
            | cons c'' x'' =>
              have hnk : isKeyChar c'' = false := by
                by_contra hcon
                exact splitTokens_ne_nil (Bool.of_not_eq_false hcon) hx
              simp [hnk]
          dsimp only
          rw [if_neg (by rw [hhead]; exact Bool.false_ne_true)]
          simp
      | cons t ts =>
        have hx'ne : x' ≠ [] := by
          intro hx'
          rw [hx'] at hx
          cases hx
        have hhead : (x' ++ ' ' :: y).head? = x'.head? := by
          cases x' with
          | nil => exact absurd rfl hx'ne
          | cons c'' x'' => rfl
        rw [hhead]
        simp only [List.cons_append]
        by_cases hh : x'.head?.any isKeyChar
        · rw [if_pos hh, if_pos hh]
          simp
        · rw [if_neg hh, if_neg hh]
          simp
    · rw [if_neg hc, if_neg hc]
      exact ih

/-- The splitter recovers the token list from a space-join of non-empty
all-key tokens. -/
theorem splitTokens_joinTokens :
    ∀ {T : List (List Char)},
      (∀ t ∈ T, t ≠ [] ∧ ∀ c ∈ t, isKeyChar c = true) →
      splitTokens (joinTokens T) = T := by
  intro T
  induction T with
  | nil => intro _; rfl
  | cons t ts ih =>
    intro h
    obtain ⟨hne, hkey⟩ := h t (List.mem_cons_self _ _)
    cases ts with
    | nil => exact splitTokens_single hne hkey
    | cons t' ts' =>
      show splitTokens (t ++ ' ' :: joinTokens (t' :: ts')) = _
      rw [splitTokens_append, splitTokens_single hne hkey,
        ih (fun x hx => h x (List.mem_cons_of_mem _ hx))]
      rfl

/-- Every character of a space-join of all-key tokens is a key character or
a space. -/
theorem joinTokens_chars :
    ∀ {T : List (List Char)},
      (∀ t ∈ T, ∀ c ∈ t, isKeyChar c = true) →
      ∀ c ∈ joinTokens T, isKeyChar c = true ∨ c = ' ' := by
  intro T
  induction T with
  | nil =>
    intro _ c hc
    cases hc
  | cons t ts ih =>
    intro h c hc
    cases ts with
    | nil => exact Or.inl (h t (List.mem_cons_self _ _) c hc)
    | cons t' ts' =>
      rcases List.mem_append.mp hc with hc' | hc'
      · exact Or.inl (h t (List.mem_cons_self _ _) c hc')
      · rcases List.mem_cons.mp hc' with rfl | hc''
        · exact Or.inr rfl
        · exact ih (fun x hx => h x (List.mem_cons_of_mem _ hx)) c hc''

/-- The tokens of a normalization key are non-empty all-key runs. -/
theorem keyTokens_tokens_key {s : List Char} :
    ∀ t ∈ keyTokens s, t ≠ [] ∧ ∀ c ∈ t, isKeyChar c = true := by
  intro t ht
  unfold keyTokens at ht
  rw [List.mem_insertionSort] at ht
  exact splitTokens_all_key (List.mem_filter.mp ht).1

/-- No token of a normalization key is a stopword. -/
theorem keyTokens_no_stop {s : List Char} :
    ∀ t ∈ keyTokens s, STOPWORDS.contains t = false := by
  intro t ht
  unfold keyTokens at ht
  rw [List.mem_insertionSort] at ht
  have := (List.mem_filter.mp ht).2
  simpa using this

/-- The tokens of a normalization key are sorted. -/
theorem keyTokens_sorted (s : List Char) :
    (keyTokens s).Sorted (· ≤ ·) :=
  List.sorted_insertionSort _ _

/-- Recomputing the key tokens of an emitted key gives the same tokens. -/
theorem keyTokens_idem (s : List Char) :
    keyTokens (joinTokens (keyTokens s)) = keyTokens s := by
  have hkey : ∀ t ∈ keyTokens s, t ≠ [] ∧ ∀ c ∈ t, isKeyChar c = true :=
    keyTokens_tokens_key
  have hstop : ∀ t ∈ keyTokens s, STOPWORDS.contains t = false :=
    keyTokens_no_stop
  have hsort : (keyTokens s).Sorted (· ≤ ·) := keyTokens_sorted s
  generalize hK : keyTokens s = K at hkey hstop hsort ⊢
  unfold keyTokens
  rw [process_eq_self (joinTokens_chars (fun t ht c hc => (hkey t ht).2 c hc))]
  rw [splitTokens_joinTokens hkey]
  rw [List.filter_eq_self.mpr (fun t ht => by
    rw [Bool.not_eq_true']
    exact hstop t ht)]
  exact List.Sorted.insertionSort_eq hsort

/-- The character pipeline of the key generator maps a space-join of words
to the concatenation of the per-word results around spaces, so its token
list is the concatenation of the per-word token lists. -/
theorem splitTokens_process_join (l : List String) :
    splitTokens (maskNonAlnum (lowerStr (unidecodeStr (joinSpace l).data))) =
      l.flatMap
        (fun w => splitTokens (maskNonAlnum (lowerStr (unidecodeStr w.data)))) := by
  induction l with
  | nil => rfl
  | cons w ws ih =>
    cases ws with
    | nil => simp [joinSpace]
    | cons w' ws' =>
      have hdata : (joinSpace (w :: w' :: ws')).data =
          w.data ++ ' ' :: (joinSpace (w' :: ws')).data := by
        show (w ++ " " ++ joinSpace (w' :: ws')).data = _
        rw [String.data_append, String.data_append, List.append_assoc]
        rfl
      rw [hdata]
      unfold unidecodeStr lowerStr maskNonAlnum
      rw [List.map_append, List.map_append, List.map_append]
      rw [List.map_cons, List.map_cons, List.map_cons]
      have hspace :
          (if isKeyChar (translitChar ' ').toLower then (translitChar ' ').toLower
           else ' ') = ' ' := by decide
      rw [hspace]
      rw [splitTokens_append]
      rw [List.flatMap_cons]
      unfold unidecodeStr lowerStr maskNonAlnum at ih
      rw [ih]

/-- Key tokens are invariant under permutation of the joined words. -/
theorem keyTokens_perm {l₁ l₂ : List String} (h : l₁.Perm l₂) :
    keyTokens (joinSpace l₁).data = keyTokens (joinSpace l₂).data := by
  unfold keyTokens
  rw [splitTokens_process_join, splitTokens_process_join]
  have hperm := (h.flatMap_right
    (fun w => splitTokens (maskNonAlnum (lowerStr (unidecodeStr w.data))))).filter
    (fun t => !(STOPWORDS.contains t))
  exact List.eq_of_perm_of_sorted
    ((List.perm_insertionSort _ _).trans
      (hperm.trans (List.perm_insertionSort _ _).symm))
    (List.sorted_insertionSort _ _) (List.sorted_insertionSort _ _)

/-- A fold preserves any invariant its step preserves. -/
theorem foldl_preserve {α σ : Type} (P : σ → Prop) (step : σ → α → σ) :
    ∀ (l : List α) (s : σ), (∀ s' a, a ∈ l → P s' → P (step s' a)) → P s →
      P (l.foldl step s)
  | [], _, _, h => h
  | a :: l, s, hstep, h =>
    foldl_preserve P step l (step s a)
      (fun s' a' ha' => hstep s' a' (List.mem_cons_of_mem _ ha'))
      (hstep s a (List.mem_cons_self _ _) h)

/-- The frame built by `buildEntries`, read at a position. -/
theorem buildEntries_getElem? {G : Type} (lib : GeoLib G)
    (cmap : List (String × String)) (pois : List POIRow) (k : Nat) :
    (buildEntries lib cmap pois)[k]? =
      (pois[k]?).map (fun row => mkDedupEntry lib cmap (k, row)) := by
  unfold buildEntries
  rw [List.getElem?_map, List.getElem?_enum]
  cases pois[k]? <;> rfl

/-- Entries sit at the position recorded in their `idx` field. -/
theorem buildEntries_idx {G : Type} {lib : GeoLib G}
    {cmap : List (String × String)} {pois : List POIRow} {k : Nat}
    {e : DedupEntry G} (h : (buildEntries lib cmap pois)[k]? = some e) :
    e.idx = k := by
  rw [buildEntries_getElem?] at h
  cases hp : pois[k]? with
  | none => rw [hp] at h; cases h
  | some row =>
    rw [hp] at h
    cases h
    rfl

/-- Each entry of the frame comes from an input row, sharing its overture id
and carrying its mapped internal category. -/
theorem buildEntries_mem {G : Type} {lib : GeoLib G}
    {cmap : List (String × String)} {pois : List POIRow} {e : DedupEntry G}
    (h : e ∈ buildEntries lib cmap pois) :
    ∃ row ∈ pois, e.overture_id = row.overture_id ∧
      e.category = internalCategory cmap row.overture_category := by
  unfold buildEntries at h
  rcases List.mem_map.mp h with ⟨p, hp, rfl⟩
  have hrow : pois[p.1]? = some p.2 := List.mem_enum_iff_getElem?.mp hp
  exact ⟨p.2, List.getElem?_mem hrow, rfl, rfl⟩

/-- An entry of the frame is found again at its own `idx`. -/
theorem buildEntries_self {G : Type} {lib : GeoLib G}
    {cmap : List (String × String)} {pois : List POIRow} {e : DedupEntry G}
    (h : e ∈ buildEntries lib cmap pois) :
    (buildEntries lib cmap pois)[e.idx]? = some e := by
  unfold buildEntries at h
  rcases List.mem_map.mp h with ⟨p, hp, rfl⟩
  have hrow : pois[p.1]? = some p.2 := List.mem_enum_iff_getElem?.mp hp
  have hidx : (mkDedupEntry lib cmap p).idx = p.1 := rfl
  rw [hidx, buildEntries_getElem?, hrow]
  rfl

/-- Setting a loser cell to a qualified winner id preserves the merge-loop
invariant. -/
theorem mergedInv_set {G : Type} {pois : List POIRow}
    {entries : List (DedupEntry G)} {merged : List (Option String)}
    (h : MergedInv pois entries merged) (l : Nat) (el ew : DedupEntry G)
    (hl : entries[l]? = some el) (hw : ew ∈ entries)
    (hcat : ew.category = el.category)
    (hsc : entryScore pois el ≤ entryScore pois ew)
    (htie : entryScore pois ew = entryScore pois el → ew.idx < el.idx) :
    MergedInv pois entries (merged.set l (some ew.overture_id)) := by
  intro k w hk
  rw [List.getElem?_set] at hk
  by_cases hkl : l = k
  · subst hkl
    rw [if_pos rfl] at hk
    split at hk
    · cases hk
      exact ⟨el, ew, hl, hw, rfl, hcat, hsc, htie⟩
    · cases hk
  · rw [if_neg hkl] at hk
    exact h k w hk

/-- The inner candidate-loop step preserves the merge-loop invariant. -/
theorem eliteStep_inv {G : Type} (lib : GeoLib G) (pois : List POIRow)
    (entries : List (DedupEntry G))
    (hidx : ∀ (k : Nat) (e' : DedupEntry G), entries[k]? = some e' → e'.idx = k)
    (i : Nat) (ei : DedupEntry G) (gi : G) (hi : entries[i]? = some ei)
    (merged : List (Option String)) (j : Nat)
    (h : MergedInv pois entries merged) :
    MergedInv pois entries (eliteStep lib pois entries i ei gi merged j) := by
  unfold eliteStep
  split
  · exact h
  next hij =>
    split
    · exact h
    next ej hj =>
      split
      · exact h
      · split
        · exact h
        next gj hgj =>
          split
          · exact h
          next hcat =>
            split
            · exact h
            · split
              · exact h
              · split
                next hsc =>
                  refine mergedInv_set h j ej ei hj (List.getElem?_mem hi)
                    (not_ne_iff.mp hcat) hsc ?_
                  intro _
                  rw [hidx i ei hi, hidx j ej hj]
                  omega
                next hsc =>
                  refine mergedInv_set h i ei ej hi (List.getElem?_mem hj)
                    (not_ne_iff.mp hcat).symm (le_of_lt (lt_of_not_le hsc)) ?_
                  intro hEq
                  exact absurd (le_of_eq hEq) hsc

/-- The outer row loop preserves the merge-loop invariant. -/
theorem eliteOuter_inv {G : Type} (lib : GeoLib G) (pois : List POIRow)
    (entries : List (DedupEntry G))
    (hidx : ∀ (k : Nat) (e' : DedupEntry G), entries[k]? = some e' → e'.idx = k)
    (merged : List (Option String)) (i : Nat)
    (h : MergedInv pois entries merged) :
    MergedInv pois entries (eliteOuter lib pois entries merged i) := by
  unfold eliteOuter
  split
  · exact h
  next ei hi =>
    split
    · exact h
    · split
      · exact h
      next gi hgi =>
        exact foldl_preserve (MergedInv pois entries)
          (eliteStep lib pois entries i ei gi) _ merged
          (fun m j _ hm => eliteStep_inv lib pois entries hidx i ei gi hi m j hm)
          h

/-- The initial all-`None` column satisfies the merge-loop invariant. -/
theorem mergedInv_init {G : Type} (pois : List POIRow)
    (entries : List (DedupEntry G)) :
    MergedInv pois entries (entries.map (fun _ => none)) := by
  intro k w hk
  rw [List.getElem?_map] at hk
  cases entries[k]? <;> simp at hk

/-- The final `merged_into` column of Phase 2 satisfies the merge-loop
invariant. -/
theorem eliteMerged_inv {G : Type} (lib : GeoLib G) (pois : List POIRow)
    (cmap : List (String × String)) :
    MergedInv pois (buildEntries lib cmap pois) (eliteMerged lib pois cmap) := by
  unfold eliteMerged
  exact foldl_preserve (MergedInv pois (buildEntries lib cmap pois))
    (eliteOuter lib pois (buildEntries lib cmap pois)) _ _
    (fun m i _ hm =>
      eliteOuter_inv lib pois (buildEntries lib cmap pois)
        (fun k e' hk => buildEntries_idx hk) m i hm)
    (mergedInv_init pois (buildEntries lib cmap pois))

/-- Every duplicate mapping emitted by the spatial deduplication pass pairs a
loser entry with a same-category winner entry of completeness score at least
the loser's (strictly earlier in discovery order on ties). -/
theorem elite_mappings_inv {G : Type} (lib : GeoLib G) (pois : List POIRow)
    (config : DedupConfig) :
    ∀ lw ∈ (deduplicate_pois_in_memory lib pois config).2.1,
      ∃ el ew : DedupEntry G,
        el ∈ buildEntries lib config.category_mapping pois ∧
        ew ∈ buildEntries lib config.category_mapping pois ∧
        el.overture_id = lw.1 ∧ ew.overture_id = lw.2 ∧
        ew.category = el.category ∧
        entryScore pois el ≤ entryScore pois ew ∧
        (entryScore pois ew = entryScore pois el → ew.idx < el.idx) := by
  intro lw hlw
  by_cases hnil : pois = []
  · subst hnil
    simp [deduplicate_pois_in_memory] at hlw
  · rw [deduplicate_pois_in_memory, if_neg hnil] at hlw
    rcases List.mem_filterMap.mp hlw with ⟨e, he, hf⟩
    rcases hm : ((eliteMerged lib pois config.category_mapping).getD e.idx none)
      with _ | w
    · rw [hm] at hf
      cases hf
    · rw [hm] at hf
      cases hf
      rw [List.getD_eq_getElem?_getD] at hm
      rcases hg : (eliteMerged lib pois config.category_mapping)[e.idx]?
        with _ | o
      · rw [hg] at hm
        cases hm
      · rw [hg] at hm
        cases hm
        rcases eliteMerged_inv lib pois config.category_mapping e.idx w hg
          with ⟨el, ew, hel, hew, hwid, hcat, hsc, htie⟩
        have he' : (buildEntries lib config.category_mapping pois)[e.idx]? =
            some e := buildEntries_self he
        rw [he'] at hel
        cases hel
        exact ⟨e, ew, he, hew, rfl, hwid, hcat, hsc, htie⟩

/-- Appending via `addToGroups` preserves the groups invariant when the appended index
points at a row with the given key. -/
theorem addToGroups_inv {pois : List POIRow} {cmap : List (String × String)}
    {key : String × String} {idx : Nat} {row : POIRow}
    (hrow : pois[idx]? = some row)
    (hkey : key =
      (normalize_text row.name, internalCategory cmap row.overture_category)) :
    ∀ {gs : List ((String × String) × List Nat)}, GroupsInv pois cmap gs →
      GroupsInv pois cmap (addToGroups gs key idx) := by
  intro gs
  induction gs with
  | nil =>
    intro _ kv hkv i hi
    simp only [addToGroups, List.mem_singleton] at hkv
    subst hkv
    simp only [List.mem_singleton] at hi
    subst hi
    exact ⟨row, hrow, hkey⟩
  | cons hd tl ih =>
    intro h
    obtain ⟨k, is⟩ := hd
    have htl : GroupsInv pois cmap tl := fun kv hkv =>
      h kv (List.mem_cons_of_mem _ hkv)
    have hhd := h (k, is) (List.mem_cons_self _ _)
    intro kv hkv i hi
    unfold addToGroups at hkv
    by_cases hk : k = key
    · rw [if_pos hk] at hkv
      rcases List.mem_cons.mp hkv with rfl | hkv'
      · rcases List.mem_append.mp hi with hi' | hi'
        · exact hhd i hi'
        · rw [List.mem_singleton] at hi'
          subst hi'
          exact ⟨row, hrow, by rw [hk, hkey]⟩
      · exact htl _ hkv' i hi
    · rw [if_neg hk] at hkv
      rcases List.mem_cons.mp hkv with rfl | hkv'
      · exact hhd i hi
      · exact ih htl _ hkv' i hi

/-- The groups dict built by `_simple_dedup` satisfies the groups
invariant. -/
theorem buildGroups_inv (pois : List POIRow) (cmap : List (String × String)) :
    GroupsInv pois cmap (buildGroups pois cmap) := by
  unfold buildGroups
  apply foldl_preserve (GroupsInv pois cmap) _ pois.enum []
  · intro gs p hp hgs
    exact addToGroups_inv (List.mem_enum_iff_getElem?.mp hp) rfl hgs
  · intro kv hkv
    cases hkv

/-- Every element of the sorted score list is the completeness tuple of one
of the group's indices. -/
theorem sortedScores_mem {pois : List POIRow} {indices : List Nat}
    {p : Int × Nat} (hp : p ∈ sortedScores pois indices) :
    p.2 ∈ indices ∧
      p.1 = calculate_completeness_score (pois.getD p.2 default) false := by
  unfold sortedScores at hp
  have hmem := (List.perm_insertionSort scoreDesc _).subset hp
  rcases List.mem_map.mp hmem with ⟨i, hi, rfl⟩
  exact ⟨hi, rfl⟩

/-- The head of the sorted score list attains the maximal completeness score
of its group, and among score ties it carries the maximal index. -/
theorem sortedScores_winner {pois : List POIRow} {indices : List Nat}
    {w : Int × Nat} {losers : List (Int × Nat)}
    (h : sortedScores pois indices = w :: losers) :
    w.2 ∈ indices ∧
    w.1 = calculate_completeness_score (pois.getD w.2 default) false ∧
    ∀ i ∈ indices,
      calculate_completeness_score (pois.getD i default) false ≤ w.1 ∧
      (calculate_completeness_score (pois.getD i default) false = w.1 →
        i ≤ w.2) := by
  have hw : w ∈ sortedScores pois indices := by
    rw [h]; exact List.mem_cons_self _ _
  obtain ⟨hw2, hw1⟩ := sortedScores_mem hw
  refine ⟨hw2, hw1, fun i hi => ?_⟩
  have hmem : ((calculate_completeness_score (pois.getD i default) false, i) :
      Int × Nat) ∈ sortedScores pois indices := by
    unfold sortedScores
    rw [List.mem_insertionSort]
    exact List.mem_map.mpr ⟨i, hi, rfl⟩
  rw [h] at hmem
  rcases List.mem_cons.mp hmem with heq | hmem'
  · constructor
    · exact le_of_eq (by rw [← heq])
    · intro _
      exact le_of_eq (by rw [← heq])
  · have hs : (sortedScores pois indices).Sorted scoreDesc :=
      List.sorted_insertionSort _ _
    rw [h] at hs
    have hrel : scoreDesc w
        (calculate_completeness_score (pois.getD i default) false, i) :=
      (List.sorted_cons.mp hs).1 _ hmem'
    rcases hrel with hlt | ⟨heq1, hle⟩
    · exact ⟨le_of_lt hlt, fun hEq => absurd hEq (ne_of_lt hlt)⟩
    · exact ⟨le_of_eq heq1.symm, fun _ => hle⟩

/-- Every duplicate mapping emitted by `_simple_dedup` pairs two rows of the
same group — hence with equal normalized names and equal internal
categories. -/
theorem simple_mappings_inv (pois : List POIRow)
    (cmap : List (String × String)) (apd : List (String × POIRow)) :
    ∀ lw ∈ (_simple_dedup pois cmap apd).2.1,
      ∃ rl ∈ pois, ∃ rw ∈ pois,
        rl.overture_id = lw.1 ∧ rw.overture_id = lw.2 ∧
        normalize_text rl.name = normalize_text rw.name ∧
        internalCategory cmap rl.overture_category =
          internalCategory cmap rw.overture_category := by
  have hmain : ∀ lw ∈ ((buildGroups pois cmap).foldl (simpleStep pois)
      ([], [])).2,
      ∃ rl ∈ pois, ∃ rw ∈ pois,
        rl.overture_id = lw.1 ∧ rw.overture_id = lw.2 ∧
        normalize_text rl.name = normalize_text rw.name ∧
        internalCategory cmap rl.overture_category =
          internalCategory cmap rw.overture_category := by
    apply foldl_preserve
      (fun acc : List POIRow × List (String × String) =>
        ∀ lw ∈ acc.2,
          ∃ rl ∈ pois, ∃ rw ∈ pois,
            rl.overture_id = lw.1 ∧ rw.overture_id = lw.2 ∧
            normalize_text rl.name = normalize_text rw.name ∧
            internalCategory cmap rl.overture_category =
              internalCategory cmap rw.overture_category)
      (simpleStep pois) (buildGroups pois cmap) ([], [])
    · intro acc g hg hacc lw hlw
      unfold simpleStep at hlw
      split at hlw
      · exact hacc lw hlw
      · split at hlw
        · exact hacc lw hlw
        next w losers hsort =>
          rcases List.mem_append.mp hlw with hlw' | hlw'
          · exact hacc lw hlw'
          · rcases List.mem_map.mp hlw' with ⟨l, hl, rfl⟩
            have hlmem : l ∈ sortedScores pois g.2 := by
              rw [hsort]
              exact List.mem_cons_of_mem _ hl
            have hwmem : w ∈ sortedScores pois g.2 := by
              rw [hsort]
              exact List.mem_cons_self _ _
            obtain ⟨hl2, _⟩ := sortedScores_mem hlmem
            obtain ⟨hw2, _⟩ := sortedScores_mem hwmem
            rcases buildGroups_inv pois cmap g hg l.2 hl2 with ⟨rl, hrl, hkl⟩
            rcases buildGroups_inv pois cmap g hg w.2 hw2 with ⟨rw', hrw, hkw⟩
            have hld : pois.getD l.2 default = rl := by
              rw [List.getD_eq_getElem?_getD, hrl]
              rfl
            have hwd : pois.getD w.2 default = rw' := by
              rw [List.getD_eq_getElem?_getD, hrw]
              rfl
            have hkeys := hkl.symm.trans hkw
            have hname : normalize_text rl.name = normalize_text rw'.name :=
              congrArg Prod.fst hkeys
            have hcat : internalCategory cmap rl.overture_category =
                internalCategory cmap rw'.overture_category :=
              congrArg Prod.snd hkeys
            exact ⟨rl, List.getElem?_mem hrl, rw', List.getElem?_mem hrw,
              by rw [hld], by rw [hwd], hname, hcat⟩
    · intro lw hlw
      cases hlw
  exact hmain

/-- C1: for every pair of candidate records in one entity-resolution pass
that share the identical upstream source id (overture id), the resolver
places them in the same cluster — they always merge, even if their names,
house numbers and postal codes all differ, for any similarity oracle and
either fuzzy-tiebreak setting. -/
theorem same_source_id_always_merges (sim : String → String → ℚ)
    (p1 p2 : POI) (fz : Bool) (h : p1.overture_id = p2.overture_id) :
    are_same_entity sim p1 p2 fz = true := by
  simp [are_same_entity, h]

/-- Witness for C1 at the fixtures of `test_gers_id_priority`: same id,
different names, different house numbers, different postal codes. -/
theorem same_source_id_always_merges_witness :
    gersPoi1.overture_id = gersPoi2.overture_id ∧
    gersPoi1.house_number ≠ gersPoi2.house_number ∧
    gersPoi1.postal_code ≠ gersPoi2.postal_code ∧
    are_same_entity (fun _ _ => 0) gersPoi1 gersPoi2 true = true :=
  ⟨rfl, by decide, by decide,
    same_source_id_always_merges (fun _ _ => 0) gersPoi1 gersPoi2 true rfl⟩

/-- C2 counterexample: two candidates with the same normalization key and
distinct non-empty house numbers are nevertheless merged when they share the
upstream source id, because the source-ID override is evaluated before the
address anchor.  This refutes the claim as stated ("regardless of
proximity", with no exclusion for shared source ids). -/
theorem same_key_distinct_houses_counterexample :
    sharedIdStoreA.normalization_key = sharedIdStoreB.normalization_key ∧
    sharedIdStoreA.house_number ≠ "" ∧
    sharedIdStoreB.house_number ≠ "" ∧
    sharedIdStoreA.house_number ≠ sharedIdStoreB.house_number ∧
    are_same_entity (fun _ _ => 0) sharedIdStoreA sharedIdStoreB true = true :=
  ⟨rfl, by decide, by decide, by decide, by decide⟩

/-- C2 (amended): for every pair of candidate records with DISTINCT upstream
source ids and distinct non-empty house numbers, entity resolution keeps
them as two different entities, regardless of name similarity (equal or
near-identical normalization keys included) and proximity. -/
theorem distinct_houses_never_merge (sim : String → String → ℚ)
    (p1 p2 : POI) (fz : Bool) (hid : p1.overture_id ≠ p2.overture_id)
    (h1 : p1.house_number ≠ "") (h2 : p2.house_number ≠ "")
    (hne : p1.house_number ≠ p2.house_number) :
    are_same_entity sim p1 p2 fz = false := by
  have hanchor : has_matching_address_anchor p1 p2 = false := by
    unfold has_matching_address_anchor
    rw [if_pos ⟨h1, h2⟩]
    simpa using hne
  unfold are_same_entity
  rw [if_neg (by simpa using hid)]
  split
  · rfl
  · split
    · exact hanchor
    · split
      · exact hanchor
      · rfl

/-- Witness for C2 (amended) at the fixtures of
`test_address_disambiguation`: same name, same normalization key, house
numbers 100 and 200, distinct ids — not the same entity. -/
theorem distinct_houses_never_merge_witness :
    store1.normalization_key = store2.normalization_key ∧
    are_same_entity (fun _ _ => 1) store1 store2 true = false :=
  ⟨rfl,
    distinct_houses_never_merge (fun _ _ => 1) store1 store2 true
      (by decide) (by decide) (by decide) (by decide)⟩

/-- C7: entity resolution is deterministic — for every fixed input batch,
configuration and external-library behaviour, running either deduplication
path twice yields identical winner lists, duplicate mappings and row
dictionaries.  In this embedding both paths are pure functions of their
inputs (no wall-clock or randomness enters), so the two runs coincide
definitionally. -/
theorem dedup_deterministic {G : Type} (lib : GeoLib G) (pois : List POIRow)
    (config : DedupConfig) (cmap : List (String × String))
    (all_pois_data : List (String × POIRow)) :
    deduplicate_pois_in_memory lib pois config =
      deduplicate_pois_in_memory lib pois config ∧
    _simple_dedup pois cmap all_pois_data =
      _simple_dedup pois cmap all_pois_data :=
  ⟨rfl, rfl⟩

/-- C6: the relevance scorer returns `None` exactly when the record has
neither a non-empty website list nor a social profile on an accepted
platform (instagram/facebook) AND its confidence is below 0.9; otherwise it
returns a score-and-flags pair.  In particular a record with confidence
0.85, no website and no accepted-platform social profile is rejected
regardless of all other signals. -/
theorem score_rejected_iff (confidence : ℚ) (websites : Option (List String))
    (socials : Option (List SocialEntry))
    (street house_number neighborhood : Option String)
    (source_magnitude : Nat) (has_brand is_iconic : Bool)
    (config : BaseScoring) :
    (calculate_scores confidence websites socials street house_number
        neighborhood source_magnitude has_brand is_iconic config = none ↔
      (hasWebsiteList websites = false ∧ hasAcceptedSocial socials = false ∧
        confidence < 9 / 10)) ∧
    (hasAcceptedSocial socials = false →
      calculate_scores (17 / 20) none socials street house_number
        neighborhood source_magnitude has_brand is_iconic config = none) := by
  have main : ∀ (c : ℚ) (ws : Option (List String))
      (so : Option (List SocialEntry)),
      (calculate_scores c ws so street house_number neighborhood
          source_magnitude has_brand is_iconic config = none ↔
        (hasWebsiteList ws = false ∧ hasAcceptedSocial so = false ∧
          c < 9 / 10)) := by
    intro c ws so
    by_cases hw : hasWebsiteList ws <;> by_cases hs : hasAcceptedSocial so <;>
      by_cases hc : c < 9 / 10 <;>
      simp [calculate_scores, hw, hs, hc]
  refine ⟨main confidence websites socials, fun hsoc => ?_⟩
  exact (main (17 / 20) none socials).mpr ⟨rfl, hsoc, by norm_num⟩

/-- Witness for C6: a record with confidence 0.85, no website list, and a
social profile on a non-accepted platform is rejected. -/
theorem score_rejected_iff_witness :
    calculate_scores (17 / 20) none (some [SocialEntry.dict (some "tiktok")])
      none none none 3 true true
      { base := 10, website := 15, social := 15, high_confidence := 10,
        house_number := 5, neighborhood := 5, street := 5,
        source_magnitude_3plus := 15, source_magnitude_2 := 10,
        brand_authority := 10, dual_presence := 10 } = none :=
  (score_rejected_iff (17 / 20) none (some [SocialEntry.dict (some "tiktok")])
      none none none 3 true true _).2 (by decide)

/-- C8: `parse_street_address` behaves as specified on the documented
scenarios — leading numeric token, trailing numeric token after a comma,
trailing numeric token without a comma (accepted because purely numeric),
no numeric token at all (whole string returned as street), and empty or
null input yielding `(None, None)`. -/
theorem parse_street_address_scenarios :
    parse_street_address (some "123 Main Street") =
      (some "Main Street", some "123") ∧
    parse_street_address (some "Rua XV de Novembro, 123") =
      (some "Rua XV de Novembro", some "123") ∧
    parse_street_address (some "Avenida Paulista 1000") =
      (some "Avenida Paulista", some "1000") ∧
    parse_street_address (some "Main St") = (some "Main St", none) ∧
    parse_street_address (some "") = (none, none) ∧
    parse_street_address none = (none, none) := by
  refine ⟨by decide, by decide, by decide, by decide, by decide, rfl⟩

/-- A category in the point set is never in the area set (the two category
sets of `geofencing.py` are disjoint). -/
theorem point_category_not_area {c : String} (h : c ∈ POINT_CATEGORIES) :
    c ∉ AREA_CATEGORIES := by
  fin_cases h <;> decide

/-- C9: for every POI whose internal category is a point category and whose
point geometry decodes, `compute_poi_boundary` returns exactly the fixed
60m safety-margin buffer circle around the point, and its result does not
depend on the supplied candidate polygons nor on the polygon matcher —
no polygon lookup influences it. -/
theorem point_category_boundary {G : Type} (lib : GeofenceLib G)
    (wkb : List UInt8) (name cat : String) (polys : Option (List G)) (pt : G)
    (hcat : cat ∈ POINT_CATEGORIES) (hload : lib.wkbLoads wkb = some pt) :
    compute_poi_boundary lib wkb name cat polys =
      (lib.bufferMeters pt SAFETY_MARGIN_METERS).map lib.wkbHex ∧
    (∀ (fm : G → String → String → List G → Option G)
        (polys' : Option (List G)),
      compute_poi_boundary { lib with findMatch := fm } wkb name cat polys' =
        compute_poi_boundary lib wkb name cat polys) := by
  have harea : cat ∉ AREA_CATEGORIES := point_category_not_area hcat
  constructor
  · unfold compute_poi_boundary
    rw [hload]
    simp only [if_neg harea, if_pos hcat]
    cases lib.bufferMeters pt SAFETY_MARGIN_METERS <;> rfl
  · intro fm polys'
    unfold compute_poi_boundary
    simp only [hload]
    simp only [if_neg harea, if_pos hcat]

/-- C10: for every POI whose internal category belongs to neither the area
set nor the point set, and whose point geometry decodes,
`compute_poi_boundary` falls through to the same fixed 60m safety-margin
buffer circle used for point categories (in particular it is non-null
whenever the buffer succeeds), never attempting a polygon match. -/
theorem unknown_category_boundary {G : Type} (lib : GeofenceLib G)
    (wkb : List UInt8) (name cat : String) (polys : Option (List G)) (pt : G)
    (harea : cat ∉ AREA_CATEGORIES) (hpoint : cat ∉ POINT_CATEGORIES)
    (hload : lib.wkbLoads wkb = some pt) :
    compute_poi_boundary lib wkb name cat polys =
      (lib.bufferMeters pt SAFETY_MARGIN_METERS).map lib.wkbHex ∧
    (∀ b, lib.bufferMeters pt SAFETY_MARGIN_METERS = some b →
      compute_poi_boundary lib wkb name cat polys = some (lib.wkbHex b)) ∧
    (∀ (fm : G → String → String → List G → Option G)
        (polys' : Option (List G)),
      compute_poi_boundary { lib with findMatch := fm } wkb name cat polys' =
        compute_poi_boundary lib wkb name cat polys) := by
  have hmain : compute_poi_boundary lib wkb name cat polys =
      (lib.bufferMeters pt SAFETY_MARGIN_METERS).map lib.wkbHex := by
    unfold compute_poi_boundary
    rw [hload]
    simp only [if_neg harea, if_neg hpoint]
    cases lib.bufferMeters pt SAFETY_MARGIN_METERS <;> rfl
  refine ⟨hmain, fun b hb => by rw [hmain, hb]; rfl, fun fm polys' => ?_⟩
  unfold compute_poi_boundary
  simp only [hload]
  simp only [if_neg harea, if_neg hpoint]

/-- Witness for C9 at a concrete bar POI. -/
theorem point_category_boundary_witness :
    compute_poi_boundary unitGeofenceLib [1] "Bar do Alemão" "bar" none =
      (unitGeofenceLib.bufferMeters () SAFETY_MARGIN_METERS).map
        unitGeofenceLib.wkbHex :=
  (point_category_boundary unitGeofenceLib [1] "Bar do Alemão" "bar" none ()
    (by decide) rfl).1

/-- C3: deduplication never places two records of different internal
categories in the same cluster.  Every loser-to-winner duplicate mapping
emitted by the spatial path (for any geometry, index and similarity oracle
behaviour) and by the fallback path pairs two input rows whose mapped
internal categories are equal. -/
theorem category_isolation :
    (∀ {G : Type} (lib : GeoLib G) (pois : List POIRow) (config : DedupConfig),
      ∀ lw ∈ (deduplicate_pois_in_memory lib pois config).2.1,
        ∃ rl ∈ pois, ∃ rw ∈ pois,
          rl.overture_id = lw.1 ∧ rw.overture_id = lw.2 ∧
          internalCategory config.category_mapping rl.overture_category =
            internalCategory config.category_mapping rw.overture_category) ∧
    (∀ (pois : List POIRow) (cmap : List (String × String))
        (apd : List (String × POIRow)),
      ∀ lw ∈ (_simple_dedup pois cmap apd).2.1,
        ∃ rl ∈ pois, ∃ rw ∈ pois,
          rl.overture_id = lw.1 ∧ rw.overture_id = lw.2 ∧
          internalCategory cmap rl.overture_category =
            internalCategory cmap rw.overture_category) := by
  constructor
  · intro G lib pois config lw hlw
    rcases elite_mappings_inv lib pois config lw hlw with
      ⟨el, ew, hel, hew, hid1, hid2, hcat, _, _⟩
    rcases buildEntries_mem hel with ⟨rl, hrl, hrlid, hrlcat⟩
    rcases buildEntries_mem hew with ⟨rw', hrw, hrwid, hrwcat⟩
    refine ⟨rl, hrl, rw', hrw, by rw [← hrlid, hid1], by rw [← hrwid, hid2], ?_⟩
    rw [← hrlcat, ← hrwcat]
    exact hcat.symm
  · intro pois cmap apd lw hlw
    rcases simple_mappings_inv pois cmap apd lw hlw with
      ⟨rl, hrl, rw', hrw, h1, h2, _, hcat⟩
    exact ⟨rl, hrl, rw', hrw, h1, h2, hcat⟩

/-- Witness for C3: in the concrete spatial run over `[polyRow, richRow]`,
the emitted mapping `rich-1 → poly-0` pairs two rows of equal internal
category. -/
theorem category_isolation_witness :
    ∃ rl ∈ [polyRow, richRow], ∃ rw ∈ [polyRow, richRow],
      rl.overture_id = ("rich-1", "poly-0").1 ∧
      rw.overture_id = ("rich-1", "poly-0").2 ∧
      internalCategory ([] : List (String × String)) rl.overture_category =
        internalCategory ([] : List (String × String)) rw.overture_category :=
  category_isolation.1 boolLib [polyRow, richRow] ⟨[]⟩ ("rich-1", "poly-0")
    (by decide)

/-- C4 counterexample.  First conjunct (fallback path): two records with
identical completeness scores, where the FIRST-discovered record `tie-0` is
recorded as the duplicate — the tie goes to the later record, not to stable
order of discovery.  Second conjunct (spatial path): the elected winner
`poly-0` does NOT maximize the claimed six-signal completeness score (its
six-signal score is strictly below the loser's); the +1000 real-polygon
dominance bonus, absent from the claimed signal list, decides the
election. -/
theorem winner_election_counterexample :
    (calculate_completeness_score tieRow0 false =
        calculate_completeness_score tieRow1 false ∧
      (_simple_dedup [tieRow0, tieRow1] [] []).2.1 = [("tie-0", "tie-1")]) ∧
    ((deduplicate_pois_in_memory boolLib [polyRow, richRow] ⟨[]⟩).2.1 =
        [("rich-1", "poly-0")] ∧
      calculate_completeness_score polyRow false <
        calculate_completeness_score richRow false) :=
  ⟨⟨by decide, by decide⟩, ⟨by decide, by decide⟩⟩

/-- C4 (amended): within every cluster, the elected winner maximizes the
code's completeness score — has-street, has-house-number, has-postal-code
(+10 each), has-website, has-socials (+5 each), confidence scaled to 0–100,
plus a +1000 real-polygon dominance bonus on the spatial path — and ties are
broken deterministically by discovery order: the fallback path elects the
LATEST-discovered maximizer, the spatial path the EARLIEST-discovered one. -/
theorem winner_election_max_completeness :
    (∀ (pois : List POIRow) (cmap : List (String × String))
        (g : (String × String) × List Nat), g ∈ buildGroups pois cmap →
      ∀ (w : Int × Nat) (losers : List (Int × Nat)),
        sortedScores pois g.2 = w :: losers →
        w.2 ∈ g.2 ∧
        w.1 = calculate_completeness_score (pois.getD w.2 default) false ∧
        ∀ i ∈ g.2,
          calculate_completeness_score (pois.getD i default) false ≤ w.1 ∧
          (calculate_completeness_score (pois.getD i default) false = w.1 →
            i ≤ w.2)) ∧
    (∀ {G : Type} (lib : GeoLib G) (pois : List POIRow) (config : DedupConfig),
      ∀ lw ∈ (deduplicate_pois_in_memory lib pois config).2.1,
        ∃ el ew : DedupEntry G,
          el ∈ buildEntries lib config.category_mapping pois ∧
          ew ∈ buildEntries lib config.category_mapping pois ∧
          el.overture_id = lw.1 ∧ ew.overture_id = lw.2 ∧
          entryScore pois el ≤ entryScore pois ew ∧
          (entryScore pois ew = entryScore pois el → ew.idx < el.idx)) := by
  constructor
  · intro pois cmap g _ w losers hsort
    exact sortedScores_winner hsort
  · intro G lib pois config lw hlw
    rcases elite_mappings_inv lib pois config lw hlw with
      ⟨el, ew, h1, h2, h3, h4, _, h6, h7⟩
    exact ⟨el, ew, h1, h2, h3, h4, h6, h7⟩

/-- Witness for C4 (amended) on the tied two-record group: the elected
winner is index 1 (latest discovered), its score bounds both members, and
every tied member has index at most 1. -/
theorem winner_election_max_completeness_witness :
    1 ∈ [0, 1] ∧
    (0 : Int) =
      calculate_completeness_score ([tieRow0, tieRow1].getD 1 default) false ∧
    ∀ i ∈ [0, 1],
      calculate_completeness_score ([tieRow0, tieRow1].getD i default) false ≤
        (0 : Int) ∧
      (calculate_completeness_score ([tieRow0, tieRow1].getD i default) false =
          (0 : Int) → i ≤ 1) :=
  winner_election_max_completeness.1 [tieRow0, tieRow1] []
    (("duo cafe", "cafe"), [0, 1]) (by decide) (0, 1) [(0, 0)] (by decide)

/-- Witness for C10 at a concrete bakery POI (a category in neither set). -/
theorem unknown_category_boundary_witness :
    compute_poi_boundary unitGeofenceLib [1] "Padaria Central" "bakery" none =
      some (unitGeofenceLib.wkbHex ()) :=
  (unknown_category_boundary unitGeofenceLib [1] "Padaria Central" "bakery"
    none () (by decide) (by decide) rfl).2.1 () rfl

/-- C5: the normalization-key generator is a deterministic function (a pure
function of its input) that strips accents, lower-cases, replaces
non-alphanumerics with spaces, drops multilingual connector stopwords, sorts
the remaining tokens and joins them with single spaces; it is idempotent on
its own output, order-independent over the words of a name, and maps
"Bar do Alemão" to "alemao bar", "Parque Barigüi" to "barigui parque" and
"The Grand Hotel" to "grand hotel". -/
theorem normalization_key_spec :
    (∀ s : String,
      generate_normalization_key (generate_normalization_key s) =
        generate_normalization_key s) ∧
    (∀ l₁ l₂ : List String, l₁.Perm l₂ →
      generate_normalization_key (joinSpace l₁) =
        generate_normalization_key (joinSpace l₂)) ∧
    generate_normalization_key "Bar do Alemão" = "alemao bar" ∧
    generate_normalization_key "Parque Barigüi" = "barigui parque" ∧
    generate_normalization_key "The Grand Hotel" = "grand hotel" := by
  refine ⟨fun s => ?_, fun l₁ l₂ h => ?_, by decide, by decide, by decide⟩
  · exact congrArg (fun T => (⟨joinTokens T⟩ : String)) (keyTokens_idem s.data)
  · exact congrArg (fun T => (⟨joinTokens T⟩ : String)) (keyTokens_perm h)

/-- Witness for C5's order-independence at a concrete permutation of
words. -/
theorem normalization_key_spec_witness :
    generate_normalization_key (joinSpace ["hotel", "grand"]) =
      generate_normalization_key (joinSpace ["grand", "hotel"]) :=
  normalization_key_spec.2.1 ["hotel", "grand"] ["grand", "hotel"] (by decide)

end Bumpti
